import Mathlib

/-! Shallow embedding of the label-generation core of `src/streamlit_app.py`
(the R.O.S.S. shipping-label app): CSV-like splitting, Job-Name quantity
resolution, regular-expression field extraction, label-plan building, and
the two batch loops (manual entry and PDF upload).

Python regular-expression searches are modelled as explicit leftmost
searches with greedy matching, including the backtracking the concrete
patterns of the source can exhibit.  Python whitespace and digit classes
are modelled over their ASCII parts (`Char.isWhitespace`, `Char.isDigit`).
Python `int` is `Int`/`Nat`.  The one partial operation in the source,
`carrier_match.group(1).strip().split()[0]` (which raises `IndexError`
when the captured carrier text is whitespace-only), is modelled with
`Option`: `extract_fields` returns `none` exactly when the source raises. -/

/-- ASCII model of the Python whitespace class used by `str.strip`,
`str.split()` and the regex class in the source's patterns. -/
def isWsC (c : Char) : Bool := c.isWhitespace

/-- Python `s.strip()` on the character list of a string. -/
def stripChars (s : List Char) : List Char :=
  ((s.dropWhile isWsC).reverse.dropWhile isWsC).reverse

/-- Python `s.strip()`. -/
def pyStrip (s : String) : String := String.mk (stripChars s.data)

/-- Helper for `pySplitWs`: accumulates the current (reversed) token. -/
def splitWsAux : List Char → List Char → List (List Char)
  | [], acc => if acc.isEmpty then [] else [acc.reverse]
  | c :: rest, acc =>
    if isWsC c then
      (if acc.isEmpty then splitWsAux rest [] else acc.reverse :: splitWsAux rest [])
    else splitWsAux rest (c :: acc)

/-- Python `s.split()` (split on whitespace runs, dropping empty parts). -/
def pySplitWs (s : List Char) : List (List Char) := splitWsAux s []

/-- Helper for `splitComma`: accumulates the current (reversed) part. -/
def splitCommaAux : List Char → List Char → List (List Char)
  | [], acc => [acc.reverse]
  | c :: rest, acc =>
    if c = ',' then acc.reverse :: splitCommaAux rest []
    else splitCommaAux rest (c :: acc)

/-- Python `s.split(",")` (keeps empty parts). -/
def splitComma (s : List Char) : List (List Char) := splitCommaAux s []

/-- Python `int(s)` for a string of decimal digits. -/
def pyIntOfDigits (s : String) : Nat :=
  s.data.foldl (fun a c => a * 10 + (c.toNat - 48)) 0

/-- Python `re.fullmatch(r"\d+", s) is not None`: nonempty, all decimal digits. -/
def isAllDigits (s : String) : Bool := !s.data.isEmpty && s.data.all Char.isDigit

/-- Source `split_csv_like` (src/streamlit_app.py:22-26): split on commas,
strip whitespace from each part, drop parts that strip to empty. -/
def split_csv_like (value : String) : List String :=
  if value = "" then []
  else (splitComma value.data).filterMap (fun p =>
    let t := stripChars p
    if t.isEmpty then none else some (String.mk t))

/-- Source `parse_job_name_qty` (src/streamlit_app.py:28-49): Job Name drives
quantity.  Empty input yields `(1, [])`; a pure digit string (after `strip`)
yields its integer value with no items; otherwise a nonempty comma split
yields `(number of parts, parts)`, and `(1, [])` if the split is empty. -/
def parse_job_name_qty (job_raw : String) : Nat × List String :=
  if job_raw = "" then (1, [])
  else
    let s := pyStrip job_raw
    if isAllDigits s then (pyIntOfDigits s, [])
    else
      let parts := split_csv_like s
      if parts.isEmpty then (1, [])
      else (parts.length, parts)

/-- Leftmost search for a literal followed by a tail pattern: models
`re.search` for the source's patterns, all of which start with a literal
(the literals are nonempty, so the empty remainder never matches).  At each
position, if the literal matches (case-insensitively when `ci` is true,
for the `(?i)` pattern) and the rest of the pattern matches the remainder,
that match wins; otherwise the search moves one character right. -/
def reSearch (ci : Bool) (lit : List Char) (tl : List Char → Option (List Char)) :
    List Char → Option (List Char)
  | [] => none
  | c :: rest =>
    let hit : Bool :=
      if ci then ((c :: rest).take lit.length).map Char.toLower == lit
      else lit.isPrefixOf (c :: rest)
    match (if hit then tl ((c :: rest).drop lit.length) else none) with
    | some g => some g
    | none => reSearch ci lit tl rest

/-- Backtracking of a greedy `\s*` over an all-whitespace remainder, longest
first: the group of `(.+)` then starts at the last position holding a
non-newline character, and runs to the next newline or the end. -/
def bestBacktrack : List Char → Option (List Char)
  | [] => none
  | c :: rest =>
    match bestBacktrack rest with
    | some g => some g
    | none =>
      if c = '\n' then none
      else some ((c :: rest).takeWhile (fun x => x ≠ '\n'))

/-- The tail `\s*(.+)` of the `Carrier:` / `Job Name:` / `Load Number:`
patterns.  Greedily skip whitespace (newlines included); if a character
remains, the group is the run of non-newline characters from there;
otherwise backtrack the `\s*` inside the all-whitespace remainder. -/
def tailDotPlus (rest : List Char) : Option (List Char) :=
  match rest.dropWhile isWsC with
  | [] => bestBacktrack rest
  | c :: d => some ((c :: d).takeWhile (fun x => x ≠ '\n'))

/-- The tail `\s*(\d+)` of the `Pro Number:` pattern. -/
def tailDigits (rest : List Char) : Option (List Char) :=
  let r := rest.dropWhile isWsC
  let ds := r.takeWhile Char.isDigit
  if ds.isEmpty then none else some ds

/-- ASCII model of the regex class `[\w-]`. -/
def isWordOrHyphen (c : Char) : Bool := c.isAlphanum || c = '_' || c = '-'

/-- The tail `\s*(SO-\d+[\w-]*)` of the `Sales Order:` pattern: skip
whitespace, require the literal `SO-` and at least one digit, then extend
greedily over digits and word/hyphen characters. -/
def tailSalesOrder (rest : List Char) : Option (List Char) :=
  let r := rest.dropWhile isWsC
  if ("SO-").data.isPrefixOf r then
    let r3 := r.drop 3
    let ds := r3.takeWhile Char.isDigit
    if ds.isEmpty then none
    else some (("SO-").data ++ ds ++ (r3.drop ds.length).takeWhile isWordOrHyphen)
  else none

/-- The tail `\s*[:\-]?\s*(\d+)` of the `(?i)Pieces` pattern: skip
whitespace, optionally consume one `:` or `-`, skip whitespace, require at
least one digit.  A digit is neither whitespace nor a separator, so greedy
matching is equivalent to the backtracking search here. -/
def tailPieces (rest : List Char) : Option (List Char) :=
  let r := rest.dropWhile isWsC
  let r2 := match r with
    | c :: rs => if c = ':' || c = '-' then rs else c :: rs
    | [] => []
  let ds := (r2.dropWhile isWsC).takeWhile Char.isDigit
  if ds.isEmpty then none else some ds

/-- Models `re.search(r"Carrier:\s*(.+)", text)`, returning the captured group. -/
def findCarrier (text : String) : Option String :=
  (reSearch false ("Carrier:").data tailDotPlus text.data).map String.mk

/-- Models `re.search(r"Sales Order:\s*(SO-\d+[\w-]*)", text)`. -/
def findSalesOrder (text : String) : Option String :=
  (reSearch false ("Sales Order:").data tailSalesOrder text.data).map String.mk

/-- Models `re.search(r"Pro Number:\s*(\d+)", text)`. -/
def findProNumber (text : String) : Option String :=
  (reSearch false ("Pro Number:").data tailDigits text.data).map String.mk

/-- Models `re.search(r"Job Name:\s*(.+)", text)`. -/
def findJobName (text : String) : Option String :=
  (reSearch false ("Job Name:").data tailDotPlus text.data).map String.mk

/-- Models `re.search(r"Load Number:\s*(.+)", text)`. -/
def findLoadNumber (text : String) : Option String :=
  (reSearch false ("Load Number:").data tailDotPlus text.data).map String.mk

/-- Models `re.search(r"(?i)Pieces\s*[:\-]?\s*(\d+)", text)`. -/
def findPieces (text : String) : Option String :=
  (reSearch true ("pieces").data tailPieces text.data).map String.mk

/-- The dictionary returned by the source's `extract_fields`. -/
structure ShipmentFields where
  scac : String
  so : String
  pro : String
  job_raw : String
  job_list : List String
  load_numbers : List String
  qty : Nat
deriving Repr, DecidableEq

/-- Line 66 of the source: `job_match.group(1).strip() if job_match else ""`. -/
def jobRawOf (text : String) : String :=
  match findJobName text with
  | some g => pyStrip g
  | none => ""

/-- Line 71 of the source: `split_csv_like(load_match.group(1)) if load_match else []`. -/
def loadNumbersOf (text : String) : List String :=
  match findLoadNumber text with
  | some g => split_csv_like g
  | none => []

/-- Lines 67 and 73-77 of the source: the quantity from `parse_job_name_qty`,
overridden by the case-insensitive `Pieces` fallback when the (stripped)
Job Name text is empty. -/
def qtyOf (text : String) : Nat :=
  if jobRawOf text = "" then
    match findPieces text with
    | some ds => pyIntOfDigits ds
    | none => (parse_job_name_qty (jobRawOf text)).1
  else (parse_job_name_qty (jobRawOf text)).1

/-- Line 80 of the source:
`carrier_match.group(1).strip().split()[0] if carrier_match else ""`.
The indexing `[0]` raises `IndexError` when the stripped group splits to
no tokens (whitespace-only group); that crash is modelled by `none`. -/
def scacOf (text : String) : Option String :=
  match findCarrier text with
  | none => some ("")
  | some g => ((pySplitWs (stripChars g.data)).head?).map String.mk

/-- Source `extract_fields` (src/streamlit_app.py:51-87).  Each field is an
independent regex search with an empty default; the whole extraction fails
(returns `none`) exactly when the carrier token lookup raises. -/
def extract_fields (text : String) : Option ShipmentFields :=
  (scacOf text).map (fun scac =>
    { scac := scac,
      so := (findSalesOrder text).getD (""),
      pro := (findProNumber text).getD (""),
      job_raw := jobRawOf text,
      job_list := (parse_job_name_qty (jobRawOf text)).2,
      load_numbers := loadNumbersOf text,
      qty := qtyOf text })

/-- One label page, as the argument tuple the source hands to
`make_single_label_pdf` (rendering itself is the external collaborator). -/
structure LabelSpec where
  so : String
  scac : String
  pro : String
  loadText : String
  index : Nat
  total : Nat
deriving Repr, DecidableEq

/-- Python `int(qty or 1)`: `None` and `0` both fall back to `1`. -/
def pyQtyOr1 (qty : Option Int) : Int :=
  match qty with
  | none => 1
  | some q => if q = 0 then 1 else q

/-- Source `make_labels_from_job_and_load` (src/streamlit_app.py:149-160):
`total = max(1, int(qty or 1))`; label `i` (0-based) displays
`load_numbers[i]` when present, else the empty string, and carries
positional metadata `i + 1` of `total`. -/
def make_labels_from_job_and_load (so scac pro : String) (qty : Option Int)
    (load_numbers : List String) : List LabelSpec :=
  let total : Nat := (max 1 (pyQtyOr1 qty)).toNat
  (List.range total).map (fun i =>
    { so := so, scac := scac, pro := pro,
      loadText := load_numbers.getD i (""), index := i + 1, total := total })

/-- One manually entered row (src/streamlit_app.py:190-195): sales order,
PRO, carrier, quantity (a positive integer widget), load-number text. -/
structure ManualRow where
  so : String
  pro : String
  scac : String
  qty : Int
  loads : String
deriving Repr, DecidableEq

/-- Row collection of manual mode (src/streamlit_app.py:183-197): up to 20
rows are read in order; each read row is appended, and reading stops right
after the first row whose sales order strips to empty.  `rowData` is the
ambient form state, indexed by row number. -/
def manualCollect (rowData : Nat → ManualRow) : Nat → Nat → List ManualRow
  | 0, _ => []
  | fuel + 1, i =>
    if pyStrip (rowData i).so = "" then [rowData i]
    else rowData i :: manualCollect rowData fuel (i + 1)

/-- The `entries` list built by manual mode. -/
def manual_entries (rowData : Nat → ManualRow) : List ManualRow :=
  manualCollect rowData 20 0

/-- Index bound of the first blank-sales-order row (plus one), capped by the
fuel: the number of rows `manualCollect` reads. -/
def firstBlankStop (rowData : Nat → ManualRow) : Nat → Nat → Nat
  | 0, _ => 0
  | fuel + 1, i =>
    if pyStrip (rowData i).so = "" then 1
    else 1 + firstBlankStop rowData fuel (i + 1)

/-- The manual-mode batch loop (src/streamlit_app.py:203-214): rows whose
sales order strips to empty are skipped; each other row contributes the
labels of `make_labels_from_job_and_load` in order. -/
def manual_all_labels : List ManualRow → List LabelSpec
  | [] => []
  | r :: rest =>
    (if pyStrip r.so = "" then []
     else make_labels_from_job_and_load (pyStrip r.so) (pyStrip r.scac)
       (pyStrip r.pro) (some r.qty) (split_csv_like r.loads)) ++
    manual_all_labels rest

/-- The PDF-mode batch loop (src/streamlit_app.py:265-288) over the page
texts: each page is extracted (a crash aborts the whole batch, hence
`Option`); pages whose sales order strips to empty are skipped; the rest
contribute their labels in order. -/
def pdf_all_labels : List String → Option (List LabelSpec)
  | [] => some []
  | t :: rest =>
    match extract_fields t with
    | none => none
    | some f =>
      let so := pyStrip f.so
      let labels : List LabelSpec :=
        if so = "" then []
        else make_labels_from_job_and_load so (pyStrip f.scac) (pyStrip f.pro)
          (some (f.qty : Int)) f.load_numbers
      match pdf_all_labels rest with
      | none => none
      | some ls => some (labels ++ ls)

/-- The first occurrence of `Carrier:` in the text, with the rest of that
same line (used to state the spec's same-line carrier rule). -/
def carrierLineRest (text : String) : Option String :=
  (reSearch false ("Carrier:").data
    (fun rest => some (rest.takeWhile (fun c => c ≠ '\n'))) text.data).map String.mk

/-- The carrier rule as the specification words it (claim-side definition,
for comparison with the code): the text after the literal `Carrier:` on
that same line, up to end of line, trimmed, split on whitespace, first
token; the empty string when absent. -/
def specCarrierCode (text : String) : String :=
  match carrierLineRest text with
  | none => ""
  | some line =>
    match (pySplitWs (stripChars line.data)).head? with
    | some tok => String.mk tok
    | none => ""

/-- Quantity resolution yields a positive count whenever the input is
nonempty and, after stripping, not a pure digit string. -/
theorem parse_job_name_qty_pos (s : String) (h1 : s ≠ "")
    (h2 : isAllDigits (pyStrip s) = false) : 1 ≤ (parse_job_name_qty s).1 := by
  simp only [parse_job_name_qty, if_neg h1, h2, Bool.false_eq_true, if_false]
  cases hsp : (split_csv_like (pyStrip s)).isEmpty
  · simp only [hsp, Bool.false_eq_true, if_false]
    have : split_csv_like (pyStrip s) ≠ [] := by
      intro hnil
      rw [hnil] at hsp
      exact absurd hsp (by decide)
    exact Nat.succ_le_of_lt (List.length_pos.mpr this)
  · simp [hsp]

/-- C1: `make_labels_from_job_and_load` returns exactly `max(1, quantity)`
label specs (a missing quantity counts as 1, and a non-positive quantity is
clamped to 1), ordered ascending by position: the label at 0-based position
`i` has `index = i + 1` and `total` equal to the length of the sequence. -/
theorem make_labels_count_and_indexed (so scac pro : String) (qty : Option Int)
    (loads : List String) :
    ((make_labels_from_job_and_load so scac pro qty loads).length
      = (match qty with | none => 1 | some q => (max 1 q).toNat)) ∧
    ∀ i (h : i < (make_labels_from_job_and_load so scac pro qty loads).length),
      ((make_labels_from_job_and_load so scac pro qty loads).get ⟨i, h⟩).index = i + 1 ∧
      ((make_labels_from_job_and_load so scac pro qty loads).get ⟨i, h⟩).total
        = (make_labels_from_job_and_load so scac pro qty loads).length := by
  constructor
  · simp only [make_labels_from_job_and_load, List.length_map, List.length_range]
    cases qty with
    | none => rfl
    | some q =>
      simp only [pyQtyOr1]
      by_cases h0 : q = 0
      · subst h0; decide
      · simp [h0]
  · intro i h
    simp only [make_labels_from_job_and_load, List.get_eq_getElem, List.getElem_map,
      List.getElem_range, List.length_map, List.length_range]
    trivial

/-- Witness for C1 at quantity 3 with two load tokens. -/
theorem make_labels_count_and_indexed_witness :
    (make_labels_from_job_and_load ("SO-1") ("FX") ("99") (some 3) [("a"), ("b")]).length = 3 ∧
    ((make_labels_from_job_and_load ("SO-1") ("FX") ("99") (some 3) [("a"), ("b")]).get
      ⟨1, (by decide)⟩).index = 2 := by
  have h := make_labels_count_and_indexed ("SO-1") ("FX") ("99") (some 3) [("a"), ("b")]
  exact ⟨h.1, (h.2 1 (by decide)).1⟩

/-- C2: for every quantity `q ≥ 1` and every token list, the batch has
exactly `q` labels and the label at 0-based position `i` shows token `i`
when it exists and the empty string otherwise; excess tokens are simply
never consulted and no failure can occur on a length mismatch. -/
theorem make_labels_load_pairing (so scac pro : String) (q : Int) (hq : 1 ≤ q)
    (loads : List String) :
    ((make_labels_from_job_and_load so scac pro (some q) loads).length = q.toNat) ∧
    ∀ i (h : i < (make_labels_from_job_and_load so scac pro (some q) loads).length),
      ((make_labels_from_job_and_load so scac pro (some q) loads).get ⟨i, h⟩).loadText
        = loads.getD i ("") := by
  constructor
  · simp only [make_labels_from_job_and_load, List.length_map, List.length_range, pyQtyOr1]
    have h0 : ¬ q = 0 := by omega
    simp only [h0, if_false]
    rw [max_eq_right hq]
  · intro i h
    simp only [make_labels_from_job_and_load, List.get_eq_getElem, List.getElem_map,
      List.getElem_range]

/-- Witness for C2: quantity 3 with tokens `a, b` pairs `a`, `b`, empty. -/
theorem make_labels_load_pairing_witness :
    ((make_labels_from_job_and_load ("SO-1") ("FX") ("99") (some 3) [("a"), ("b")]).length
      = (3 : Int).toNat) ∧
    ((make_labels_from_job_and_load ("SO-1") ("FX") ("99") (some 3) [("a"), ("b")]).get
      ⟨2, (by decide)⟩).loadText = [("a"), ("b")].getD 2 ("") := by
  have h := make_labels_load_pairing ("SO-1") ("FX") ("99") 3 (by decide) [("a"), ("b")]
  exact ⟨h.1, h.2 2 (by decide)⟩

/-- C3 counterexample: the input consisting of a space and a digit is
nonempty, not entirely decimal digits, and its comma split yields the
single token `5`, yet `parse_job_name_qty` strips the input first and so
returns `(5, [])` rather than the token count and list `(1, [5])`. -/
theorem parse_job_name_qty_untrimmed_digits_cex :
    (" 5" : String) ≠ "" ∧ isAllDigits (" 5") = false ∧
    split_csv_like (" 5") = [("5")] ∧
    parse_job_name_qty (" 5") = (5, []) ∧
    parse_job_name_qty (" 5") ≠ (1, [("5")]) := by decide

/-- C3 amended: for every input that is nonempty, not entirely decimal
digits after stripping, and whose comma split (of the stripped input)
yields at least one nonempty trimmed token, `parse_job_name_qty` returns
the token count together with the token list. -/
theorem parse_job_name_qty_csv_after_trim (job_raw : String)
    (h1 : job_raw ≠ "") (h2 : isAllDigits (pyStrip job_raw) = false)
    (h3 : split_csv_like (pyStrip job_raw) ≠ []) :
    parse_job_name_qty job_raw
      = ((split_csv_like (pyStrip job_raw)).length, split_csv_like (pyStrip job_raw)) := by
  have h4 : (split_csv_like (pyStrip job_raw)).isEmpty = false := by
    cases hsp : split_csv_like (pyStrip job_raw) with
    | nil => exact absurd hsp h3
    | cons a l => rfl
  simp only [parse_job_name_qty, if_neg h1, h2, Bool.false_eq_true, if_false, h4]

/-- Witness for C3 amended at `a, b`. -/
theorem parse_job_name_qty_csv_after_trim_witness :
    parse_job_name_qty ("a, b") = (2, [("a"), ("b")]) :=
  (parse_job_name_qty_csv_after_trim ("a, b") (by decide) (by decide) (by decide)).trans
    (by decide)

/-- C4 counterexample: a single non-numeric comma-free token is returned as
a one-element item list, so `parse_job_name_qty` on `widget` yields
`(1, [widget])`, not `(1, [])` as claimed. -/
theorem parse_job_name_qty_single_token_cex :
    parse_job_name_qty ("widget") = (1, [("widget")]) ∧
    parse_job_name_qty ("widget") ≠ (1, ([] : List String)) := by decide

/-- C4 amended: the empty input yields `(1, [])`, while a single
non-numeric comma-free token yields quantity 1 together with the token
itself as the one-element item list. -/
theorem parse_job_name_qty_empty_and_single :
    parse_job_name_qty ("") = (1, ([] : List String)) ∧
    parse_job_name_qty ("widget") = (1, [("widget")]) := by decide

/-- C5: extraction is not total — on a text whose `Carrier:` label is
followed only by whitespace, the source's `group(1).strip().split()[0]`
raises `IndexError` (the captured group backtracks to a whitespace-only
string), modelled here by `extract_fields` returning `none`. -/
theorem extract_fields_whitespace_carrier_crash :
    extract_fields ("Carrier: \n") = none := by decide

/-- C6 counterexample: a record produced from the page text `Job Name: 0`
has quantity 0, not a positive integer. -/
theorem extract_fields_qty_zero_cex :
    (extract_fields ("Job Name: 0")).map ShipmentFields.qty = some 0 ∧ ¬ (1 ≤ (0 : Nat)) := by
  decide

/-- Unpacking of a successful extraction: every field of the record equals
the corresponding field rule applied to the page text. -/
theorem extract_fields_some (text : String) (f : ShipmentFields)
    (h : extract_fields text = some f) :
    scacOf text = some f.scac ∧ f.so = (findSalesOrder text).getD ("") ∧
    f.pro = (findProNumber text).getD ("") ∧ f.job_raw = jobRawOf text ∧
    f.job_list = (parse_job_name_qty (jobRawOf text)).2 ∧
    f.load_numbers = loadNumbersOf text ∧ f.qty = qtyOf text := by
  rcases Option.map_eq_some'.mp h with ⟨scac, hs, hf⟩
  subst hf
  exact ⟨hs, rfl, rfl, rfl, rfl, rfl, rfl⟩

/-- C6 amended: every record produced by extraction whose Job Name text is
nonempty and, after stripping, not entirely decimal digits has quantity at
least 1.  (When the Job Name is a pure digit string — or absent with a
`Pieces` fallback present — the quantity is that parsed integer, which is
0 for a literal `0`.) -/
theorem extract_fields_qty_pos_of_nonnumeric_job (text : String) (f : ShipmentFields)
    (h : extract_fields text = some f) (h1 : f.job_raw ≠ "")
    (h2 : isAllDigits (pyStrip f.job_raw) = false) : 1 ≤ f.qty := by
  obtain ⟨-, -, -, hjr, -, -, hq⟩ := extract_fields_some text f h
  rw [hq]
  unfold qtyOf
  rw [← hjr, if_neg h1]
  exact parse_job_name_qty_pos f.job_raw h1 h2

/-- Witness for C6 amended at the page text `Job Name: widget`. -/
theorem extract_fields_qty_pos_of_nonnumeric_job_witness :
    1 ≤ (ShipmentFields.mk ("") ("") ("") ("widget") [("widget")] [] 1).qty :=
  extract_fields_qty_pos_of_nonnumeric_job ("Job Name: widget") _
    (by decide) (by decide) (by decide)

/-- C7: whenever the extracted Job Name text is empty and the
case-insensitive `Pieces` pattern matches somewhere in the page text, the
extracted quantity is exactly the integer of the matched digits,
overriding the quantity resolver. -/
theorem extract_fields_pieces_fallback (text : String) (f : ShipmentFields)
    (h : extract_fields text = some f) (h1 : f.job_raw = "") (ds : String)
    (h2 : findPieces text = some ds) : f.qty = pyIntOfDigits ds := by
  obtain ⟨-, -, -, hjr, -, -, hq⟩ := extract_fields_some text f h
  rw [hq]
  unfold qtyOf
  rw [← hjr, if_pos h1, h2]

/-- Witness for C7 at the page text `Pieces: 5`. -/
theorem extract_fields_pieces_fallback_witness :
    (ShipmentFields.mk ("") ("") ("") ("") [] [] 5).qty = pyIntOfDigits ("5") :=
  extract_fields_pieces_fallback ("Pieces: 5") _ (by decide) rfl ("5") (by decide)

/-- C9: in both batch paths a record whose sales order strips to empty is
dropped entirely — removing such a manual row, or such a page, from the
input leaves the produced label batch unchanged (it contributes zero
labels and raises no error). -/
theorem batch_blank_sales_order_dropped :
    (∀ (pre post : List ManualRow) (r : ManualRow), pyStrip r.so = "" →
      manual_all_labels (pre ++ r :: post) = manual_all_labels (pre ++ post)) ∧
    (∀ (pre post : List String) (page : String) (f : ShipmentFields),
      extract_fields page = some f → pyStrip f.so = "" →
      pdf_all_labels (pre ++ page :: post) = pdf_all_labels (pre ++ post)) := by
  constructor
  · intro pre post r hr
    induction pre with
    | nil => simp [manual_all_labels, hr]
    | cons p pre ih =>
      simp only [List.cons_append, manual_all_labels]
      have ih2 : manual_all_labels (pre.append (r :: post)) = manual_all_labels (pre.append post) := ih
      rw [ih2]
  · intro pre post page f hf hso
    induction pre with
    | nil =>
      simp only [List.nil_append, pdf_all_labels, hf, hso, if_pos]
      cases pdf_all_labels post <;> simp
    | cons p pre ih =>
      simp only [List.cons_append, pdf_all_labels]
      have ih2 : pdf_all_labels (pre.append (page :: post)) = pdf_all_labels (pre.append post) := ih
      rw [ih2]

/-- Witness for C9: a blank manual row and the empty page text both
contribute nothing. -/
theorem batch_blank_sales_order_dropped_witness :
    manual_all_labels [ManualRow.mk ("") ("") ("") 1 ("")] = manual_all_labels [] ∧
    pdf_all_labels [("")] = pdf_all_labels [] := by
  have h := batch_blank_sales_order_dropped
  exact ⟨h.1 [] [] (ManualRow.mk ("") ("") ("") 1 ("")) (by decide),
         h.2 [] [] ("") (ShipmentFields.mk ("") ("") ("") ("") [] [] 1)
           (by decide) (by decide)⟩

/-- The rows `manualCollect` reads are exactly the first `firstBlankStop`
rows starting at the given index. -/
theorem manualCollect_eq_range (rowData : Nat → ManualRow) :
    ∀ (fuel i : Nat), manualCollect rowData fuel i
      = (List.range (firstBlankStop rowData fuel i)).map (fun k => rowData (i + k)) := by
  intro fuel
  induction fuel with
  | zero => intro i; rfl
  | succ n ih =>
    intro i
    simp only [manualCollect, firstBlankStop]
    by_cases hb : pyStrip (rowData i).so = ""
    · rw [if_pos hb, if_pos hb]
      have h1 : List.range 1 = [0] := rfl
      rw [h1, List.map_cons, List.map_nil, Nat.add_zero]
    · simp only [hb, if_false, ih (i + 1)]
      rw [Nat.add_comm 1 (firstBlankStop rowData n (i + 1)), List.range_succ_eq_map]
      simp only [List.map_cons, List.map_map, Nat.add_zero]
      refine congrArg (fun l => rowData i :: l) ?_
      apply List.map_congr_left
      intro a _
      simp only [Function.comp_apply]
      refine congrArg rowData ?_
      omega

/-- The stop count `firstBlankStop` never exceeds its fuel. -/
theorem firstBlankStop_le (rowData : Nat → ManualRow) :
    ∀ (fuel i : Nat), firstBlankStop rowData fuel i ≤ fuel := by
  intro fuel
  induction fuel with
  | zero => intro i; exact Nat.le_refl 0
  | succ n ih =>
    intro i
    simp only [firstBlankStop]
    by_cases hb : pyStrip (rowData i).so = ""
    · simp [hb]
    · simp only [hb, if_false]
      have := ih (i + 1)
      omega

/-- All rows strictly before the stopping row have nonblank sales orders. -/
theorem firstBlankStop_nonblank (rowData : Nat → ManualRow) :
    ∀ (fuel i j : Nat), j + 1 < firstBlankStop rowData fuel i →
      pyStrip (rowData (i + j)).so ≠ "" := by
  intro fuel
  induction fuel with
  | zero => intro i j h; simp [firstBlankStop] at h
  | succ n ih =>
    intro i j h
    simp only [firstBlankStop] at h
    by_cases hb : pyStrip (rowData i).so = ""
    · rw [if_pos hb] at h; omega
    · rw [if_neg hb] at h
      cases j with
      | zero => simpa using hb
      | succ j =>
        have := ih (i + 1) j (by omega)
        have harith : i + 1 + j = i + (j + 1) := by omega
        rw [harith] at this
        exact this

/-- A blank row within the fuel bounds the stopping point. -/
theorem firstBlankStop_le_blank (rowData : Nat → ManualRow) :
    ∀ (fuel i j : Nat), j < fuel → pyStrip (rowData (i + j)).so = "" →
      firstBlankStop rowData fuel i ≤ j + 1 := by
  intro fuel
  induction fuel with
  | zero => intro i j h; omega
  | succ n ih =>
    intro i j hj hb
    simp only [firstBlankStop]
    by_cases h0 : pyStrip (rowData i).so = ""
    · rw [if_pos h0]; omega
    · rw [if_neg h0]
      cases j with
      | zero => simp at hb; exact absurd hb h0
      | succ j =>
        have harith : i + (j + 1) = i + 1 + j := by omega
        rw [harith] at hb
        have := ih (i + 1) j (by omega) hb
        omega

/-- C10: manual entry reads at most 20 rows; the rows collected are exactly
the first `firstBlankStop` rows, where reading stops right after the first
row whose sales order is blank — so a row positioned after a blank row is
never in the entry list, whatever its contents. -/
theorem manual_rows_capped_and_stop (rowData : Nat → ManualRow) :
    manual_entries rowData = (List.range (firstBlankStop rowData 20 0)).map rowData ∧
    (manual_entries rowData).length ≤ 20 ∧
    (∀ j, j + 1 < firstBlankStop rowData 20 0 → pyStrip (rowData j).so ≠ "") ∧
    (∀ j, j < 20 → pyStrip (rowData j).so = "" → firstBlankStop rowData 20 0 ≤ j + 1) := by
  have he : manual_entries rowData
      = (List.range (firstBlankStop rowData 20 0)).map (fun k => rowData (0 + k)) :=
    manualCollect_eq_range rowData 20 0
  have he2 : manual_entries rowData
      = (List.range (firstBlankStop rowData 20 0)).map rowData := by
    rw [he]
    apply List.map_congr_left
    intro a _
    rw [Nat.zero_add]
  refine ⟨he2, ?_, ?_, ?_⟩
  · rw [he2, List.length_map, List.length_range]
    exact firstBlankStop_le rowData 20 0
  · intro j hj
    have := firstBlankStop_nonblank rowData 20 0 j hj
    simpa using this
  · intro j hj hb
    have := firstBlankStop_le_blank rowData 20 0 j hj (by simpa using hb)
    exact this

/-- Witness for C10: with row 1 blank, exactly rows 0 and 1 are collected
and the stop point is 2 (so rows 2 and on never enter the list). -/
theorem manual_rows_capped_and_stop_witness :
    manual_entries (fun i => if i = 0 then ManualRow.mk ("SO-1") ("1") ("X") 1 ("")
        else ManualRow.mk ("") ("") ("") 1 (""))
      = [ManualRow.mk ("SO-1") ("1") ("X") 1 (""), ManualRow.mk ("") ("") ("") 1 ("")] ∧
    firstBlankStop (fun i => if i = 0 then ManualRow.mk ("SO-1") ("1") ("X") 1 ("")
        else ManualRow.mk ("") ("") ("") 1 ("")) 20 0 ≤ 2 := by
  have h := manual_rows_capped_and_stop
    (fun i => if i = 0 then ManualRow.mk ("SO-1") ("1") ("X") 1 ("")
      else ManualRow.mk ("") ("") ("") 1 (""))
  refine ⟨h.1.trans (by decide), h.2.2.2 1 (by decide) (by decide)⟩

/-- Dropping a whitespace prefix commutes with appending it. -/
theorem dropWhile_append_all {p : Char → Bool} :
    ∀ (w g : List Char), (∀ c ∈ w, p c = true) → (w ++ g).dropWhile p = g.dropWhile p := by
  intro w
  induction w with
  | nil => intro g _; rfl
  | cons c w ih =>
    intro g hw
    rw [List.cons_append, List.dropWhile_cons_of_pos (hw c (List.mem_cons_self c w))]
    exact ih g (fun x hx => hw x (List.mem_cons_of_mem c hx))

/-- Stripping ignores an all-whitespace prefix. -/
theorem stripChars_append_ws (w g : List Char) (hw : ∀ c ∈ w, isWsC c = true) :
    stripChars (w ++ g) = stripChars g := by
  unfold stripChars
  rw [dropWhile_append_all w g hw]

/-- An all-whitespace list strips to the empty list. -/
theorem stripChars_nil_of_all_ws (s : List Char) (hs : ∀ c ∈ s, isWsC c = true) :
    stripChars s = [] := by
  have h1 : s.dropWhile isWsC = [] :=
    List.dropWhile_eq_nil_iff.mpr (fun x hx => hs x hx)
  unfold stripChars
  rw [h1]
  rfl

/-- On the all-whitespace-free side: a list with nonempty strip result has a
non-whitespace element. -/
theorem exists_non_ws_of_stripChars_ne_nil (s : List Char) (h : stripChars s ≠ []) :
    ∃ d ∈ s, isWsC d = false := by
  by_contra hall
  push_neg at hall
  refine h (stripChars_nil_of_all_ws s (fun x hx => ?_))
  have hx2 := hall x hx
  revert hx2
  cases isWsC x <;> simp

/-- Whenever the rest of the current line (after the matched literal) does
not strip to nothing, the greedy `\s*(.+)` tail succeeds and captures a
group that strips to the same text as that same-line rest. -/
theorem tailDotPlus_same_line :
    ∀ rest : List Char,
      stripChars (rest.takeWhile (fun c => c ≠ '\n')) ≠ [] →
      ∃ g, tailDotPlus rest = some g ∧
        stripChars g = stripChars (rest.takeWhile (fun c => c ≠ '\n')) := by
  intro rest
  induction rest with
  | nil => intro h; exact absurd rfl h
  | cons c r ih =>
    intro h
    by_cases hn : c = '\n'
    · subst hn
      rw [List.takeWhile_cons] at h
      simp at h
      exact absurd rfl h
    · have htw : (c :: r).takeWhile (fun x => decide (x ≠ '\n'))
          = c :: r.takeWhile (fun x => decide (x ≠ '\n')) := by
        rw [List.takeWhile_cons]
        simp [hn]
    
      by_cases hw : isWsC c = true
      · have hstrip : stripChars (c :: r.takeWhile (fun x => decide (x ≠ '\n')))
            = stripChars (r.takeWhile (fun x => decide (x ≠ '\n'))) := by
          have hm : ∀ x ∈ [c], isWsC x = true := by
            intro x hx
            rw [List.mem_singleton] at hx
            subst hx
            exact hw
          exact stripChars_append_ws [c] _ hm
        rw [htw, hstrip] at h
        obtain ⟨g, hg, hs⟩ := ih h
        obtain ⟨d, hd, hdf⟩ := exists_non_ws_of_stripChars_ne_nil _ h
        have hdr : d ∈ r := List.takeWhile_subset _ hd
        have hrne : r.dropWhile isWsC ≠ [] := by
          intro h0
          have hall := List.dropWhile_eq_nil_iff.mp h0
          have := hall d hdr
          rw [this] at hdf
          cases hdf
        refine ⟨g, ?_, by rw [hs, htw, hstrip]⟩
        cases hcase : r.dropWhile isWsC with
        | nil => exact absurd hcase hrne
        | cons a l =>
          unfold tailDotPlus at hg ⊢
          rw [hcase] at hg
          rw [List.dropWhile_cons_of_pos hw, hcase]
          exact hg
      · refine ⟨(c :: r).takeWhile (fun x => decide (x ≠ '\n')), ?_, rfl⟩
        unfold tailDotPlus
        rw [List.dropWhile_cons_of_neg hw]

/-- If no occurrence of the literal exists at all (the always-succeeding
same-line tail finds nothing), the real carrier search finds nothing. -/
theorem reSearch_none_pair (lit : List Char) :
    ∀ t : List Char,
      reSearch false lit (fun rest => some (rest.takeWhile (fun c => c ≠ '\n'))) t = none →
      reSearch false lit tailDotPlus t = none := by
  intro t
  induction t with
  | nil => intro _; rfl
  | cons c rest ih =>
    intro h
    simp only [reSearch, Bool.false_eq_true, if_false] at h ⊢
    by_cases hh : lit.isPrefixOf (c :: rest) = true
    · rw [if_pos hh] at h
      simp at h
    · rw [if_neg hh] at h ⊢
      simp only [] at h ⊢
      exact ih h

/-- When the same-line search finds a line whose strip is nonempty, the real
carrier search succeeds at that same position, and the captured group
strips to the same text as the line. -/
theorem reSearch_some_pair (lit : List Char) :
    ∀ (t line : List Char),
      reSearch false lit (fun rest => some (rest.takeWhile (fun c => c ≠ '\n'))) t
        = some line →
      stripChars line ≠ [] →
      ∃ g, reSearch false lit tailDotPlus t = some g ∧ stripChars g = stripChars line := by
  intro t
  induction t with
  | nil =>
    intro line h
    exact absurd h (by simp [reSearch])
  | cons c rest ih =>
    intro line h hline
    simp only [reSearch, Bool.false_eq_true, if_false] at h ⊢
    by_cases hh : lit.isPrefixOf (c :: rest) = true
    · rw [if_pos hh] at h ⊢
      simp only [Option.some.injEq] at h
      obtain ⟨g, hg, hs⟩ := tailDotPlus_same_line ((c :: rest).drop lit.length)
        (by rw [h]; exact hline)
      rw [hg]
      exact ⟨g, rfl, by rw [hs, h]⟩
    · rw [if_neg hh] at h ⊢
      simp only [] at h ⊢
      exact ih line h hline

/-- C8 counterexample: on `Carrier:\nFEDX` the spec's same-line rule yields
the empty string (nothing follows `Carrier:` on its line), but the code's
pattern skips the newline and extracts `FEDX` from the next line. -/
theorem extract_fields_carrier_next_line_cex :
    specCarrierCode ("Carrier:\nFEDX") = ("") ∧
    (extract_fields ("Carrier:\nFEDX")).map ShipmentFields.scac = some ("FEDX") := by
  decide

/-- C8 amended: the extracted carrier code is the empty string when no
`Carrier:` occurs, and it agrees with the spec's same-line rule (text after
`Carrier:` on that line, trimmed, split on whitespace, first token)
whenever the remainder of that line is not whitespace-only.  (When the
same-line remainder is blank, the code's pattern instead skips across line
breaks — or crashes on a whitespace-only capture.) -/
theorem extract_fields_scac_same_line (text : String) (f : ShipmentFields)
    (h : extract_fields text = some f) :
    (carrierLineRest text = none → f.scac = "") ∧
    (∀ line : String, carrierLineRest text = some line → stripChars line.data ≠ [] →
      f.scac = specCarrierCode text) := by
  obtain ⟨hscac, -, -, -, -, -, -⟩ := extract_fields_some text f h
  constructor
  · intro hnone
    have h0 : reSearch false ("Carrier:").data
        (fun rest => some (rest.takeWhile (fun c => c ≠ '\n'))) text.data = none := by
      cases hy : reSearch false ("Carrier:").data
          (fun rest => some (rest.takeWhile (fun c => c ≠ '\n'))) text.data with
      | none => rfl
      | some l =>
        unfold carrierLineRest at hnone
        rw [hy] at hnone
        cases hnone
    have h1 : findCarrier text = none := by
      unfold findCarrier
      rw [reSearch_none_pair _ _ h0]
      rfl
    unfold scacOf at hscac
    rw [h1] at hscac
    exact (Option.some.inj hscac).symm
  · intro line hline hstrip
    have h0 : reSearch false ("Carrier:").data
        (fun rest => some (rest.takeWhile (fun c => c ≠ '\n'))) text.data
          = some line.data := by
      unfold carrierLineRest at hline
      rcases Option.map_eq_some'.mp hline with ⟨l0, hl0, hmk⟩
      have hdata : line.data = l0 := by rw [← hmk]
      rw [hl0, hdata]
    obtain ⟨g, hg, hs⟩ := reSearch_some_pair _ text.data line.data h0 hstrip
    have h1 : findCarrier text = some (String.mk g) := by
      unfold findCarrier
      rw [hg]
      rfl
    unfold scacOf at hscac
    rw [h1] at hscac
    simp only [Option.map_eq_some'] at hscac
    rcases hscac with ⟨tok0, htok0, hmk0⟩
    have hscac2 : ((pySplitWs (stripChars line.data)).head?).map String.mk = some f.scac := by
      rw [← hs]
      rw [htok0, ← hmk0]
      rfl
    cases htok : (pySplitWs (stripChars line.data)).head? with
    | none =>
      rw [htok] at hscac2
      cases hscac2
    | some tok =>
      rw [htok] at hscac2
      have hspec : specCarrierCode text = String.mk tok := by
        simp only [specCarrierCode, hline, htok]
      rw [hspec]
      exact (Option.some.inj hscac2).symm

/-- Witness for C8 amended: with the carrier value on the same line, the
extracted token equals the spec's same-line rule. -/
theorem extract_fields_scac_same_line_witness :
    (ShipmentFields.mk ("FEDX") ("") ("") ("") [] [] 1).scac
      = specCarrierCode ("Carrier: FEDX EXPRESS\n") :=
  (extract_fields_scac_same_line ("Carrier: FEDX EXPRESS\n") _ (by decide)).2
    (" FEDX EXPRESS") (by decide) (by decide)
